import Mathlib

/-!
Verification of the Stats Query Gateway of the Streamlit-Hockey-Stats
repository (`src/app.py`, class `Neo4jHockeyDatabase`, plus the display
helpers `show_games` / `show_recent_games` / `show_custom_queries`).

The gateway is embedded shallowly: the property-graph store is a record of
flat fact lists (one entry per matched Cypher pattern row), each fixed
Cypher query becomes a Lean function over that record, and
`execute_query`'s exception handling becomes explicit branching on a
connection flag and a failure flag.
-/

namespace HockeyStats

/-- One `(t:Team)-[rel:PLAYED]->(g:Game)-[:PART_OF]->(s:Season)-[:PART_OF]->(c:Competition)`
match row: the team, the competition and season names reached through the
two `PART_OF` edges, and the `PLAYED` relationship properties used by the
standings and team-stats queries. -/
structure PlayedEdge where
  team : String
  competition : String
  season : String
  result : String
  goalsFor : Int
  goalsAgainst : Int
  points : Int
  gameId : Nat
deriving DecidableEq

/-- One `(p:Player)-[:SCORED|ASSISTED_IN]->(:Goal)-[:IN_GAME]->(game)` match row,
with the player's display name (`firstName + ' ' + lastName`), the team reached
via `PLAYS_FOR`, and the competition/season of the game. -/
structure GoalEvent where
  player : String
  team : String
  competition : String
  season : String
  gameId : Nat
deriving DecidableEq

/-- One `(p:Player)-[:COMMITTED]->(pen:Penalty)-[:IN_GAME]->(game)` match row. -/
structure PenaltyEvent where
  player : String
  team : String
  competition : String
  season : String
  minutes : Int
  gameId : Nat
deriving DecidableEq

/-- A `Game` node together with its season/competition chain. -/
structure GameNode where
  date : String
  homeTeam : String
  awayTeam : String
  score : Option String
  spectators : Option Int
  title : Option String
  competition : String
  season : String
deriving DecidableEq

/-- A `Team` node. -/
structure TeamNode where
  name : String
  shortName : String
deriving DecidableEq

/-- The graph store, flattened to the pattern rows the gateway queries match. -/
structure Store where
  competitions : List String
  seasons : List String
  teams : List TeamNode
  played : List PlayedEdge
  goals : List GoalEvent
  assists : List GoalEvent
  penalties : List PenaltyEvent
  games : List GameNode

/-- The store with no nodes at all. -/
def Store.empty : Store := ⟨[], [], [], [], [], [], [], []⟩

/-- Failure conditions of a query round-trip (driver exceptions in the
source): connectivity loss or a malformed/invalid query. -/
inductive DbError where
  | connectionError
  | queryError
deriving DecidableEq

/-- State of a `Neo4jHockeyDatabase` instance: `connected` is the flag set in
`__init__`, `failing` models the driver raising during `session.run`, and
`store` is the data behind a successful query. -/
structure Neo4jHockeyDatabase where
  connected : Bool
  failing : Bool
  store : Store

/-- Method `execute_query` (src/app.py:95-106): returns `[]` when not connected;
otherwise runs the query and catches every exception, returning `[]`
(after displaying an error banner, which we do not model). -/
def execute_query (db : Neo4jHockeyDatabase)
    (sem : Store → Except DbError (List α)) : List α :=
  if db.connected = false then []
  else if db.failing = true then []
  else
    match sem db.store with
    | .error _ => []
    | .ok rows => rows

instance decidableRelStringGe : DecidableRel (fun a b : String => b ≤ a) :=
  fun a b => inferInstanceAs (Decidable (b ≤ a))

instance decidableRelStringLe : DecidableRel (fun a b : String => a ≤ b) :=
  fun a b => inferInstanceAs (Decidable (a ≤ b))

/-- The `results if results else default` idiom every getter ends with. -/
def fallbackIfEmpty (default rs : List α) : List α :=
  if rs.isEmpty then default else rs

/-- Query `MATCH (c:Competition) RETURN c.name AS competition ORDER BY c.name`. -/
def competitionsSem (store : Store) : Except DbError (List String) :=
  .ok (List.insertionSort (fun a b : String => a ≤ b) store.competitions)

/-- Method `get_competitions` (src/app.py:108-113): falls back to `["SHL"]` when the
query yields no rows. -/
def get_competitions (db : Neo4jHockeyDatabase) : List String :=
  fallbackIfEmpty ["SHL"] (execute_query db competitionsSem)

/-- Query `MATCH (s:Season) RETURN s.name AS season ORDER BY s.name DESC`. -/
def seasonsSem (store : Store) : Except DbError (List String) :=
  .ok (List.insertionSort (fun a b : String => b ≤ a) store.seasons)

/-- Method `get_seasons` (src/app.py:115-120): falls back to
`["2024/2025", "2023/2024"]` when the query yields no rows. -/
def get_seasons (db : Neo4jHockeyDatabase) : List String :=
  fallbackIfEmpty ["2024/2025", "2023/2024"] (execute_query db seasonsSem)

/-- Query `MATCH (t:Team) RETURN t.name, t.shortName ORDER BY t.name`. -/
def teamsSem (store : Store) : Except DbError (List TeamNode) :=
  .ok (List.insertionSort (fun a b : TeamNode => a.name ≤ b.name) store.teams)

/-- Method `get_teams` (src/app.py:122-134): falls back to two hard-coded teams when
the query yields no rows. -/
def get_teams (db : Neo4jHockeyDatabase) : List TeamNode :=
  fallbackIfEmpty [⟨"Frölunda HC", "FHC"⟩, ⟨"Skellefteå AIK", "SKE"⟩]
    (execute_query db teamsSem)

/-- A standings row as projected by the standings query. -/
structure StandingsRow where
  team : String
  games : Int
  wins : Int
  losses : Int
  goals_for : Int
  goals_against : Int
  points : Int
deriving DecidableEq

/-- Per-team aggregation of the standings query: `count(g)`,
`sum(CASE WHEN rel.result = 'W' ...)`, `sum(CASE WHEN rel.result = 'L' ...)`,
`sum(rel.goalsFor)`, `sum(rel.goalsAgainst)`, `sum(rel.points)`. -/
def standingsRowFor (t : String) (es : List PlayedEdge) : StandingsRow :=
  { team := t
    games := (es.length : Int)
    wins := (es.countP (fun e => e.result = "W") : Int)
    losses := (es.countP (fun e => e.result = "L") : Int)
    goals_for := (es.map (·.goalsFor)).sum
    goals_against := (es.map (·.goalsAgainst)).sum
    points := (es.map (·.points)).sum }

/-- Clause `ORDER BY points DESC, goals_for DESC`. -/
def standingsOrder (a b : StandingsRow) : Prop :=
  b.points < a.points ∨ (a.points = b.points ∧ b.goals_for ≤ a.goals_for)

instance : DecidableRel standingsOrder := fun a b =>
  inferInstanceAs (Decidable
    (b.points < a.points ∨ (a.points = b.points ∧ b.goals_for ≤ a.goals_for)))

instance : IsTotal StandingsRow standingsOrder where
  total a b := by
    unfold standingsOrder
    rcases lt_trichotomy a.points b.points with h | h | h
    · exact .inr (.inl h)
    · rcases le_total b.goals_for a.goals_for with hg | hg
      · exact .inl (.inr ⟨h, hg⟩)
      · exact .inr (.inr ⟨h.symm, hg⟩)
    · exact .inl (.inl h)

instance : IsTrans StandingsRow standingsOrder where
  trans a b c hab hbc := by
    unfold standingsOrder at *
    rcases hab with h1 | ⟨h1, g1⟩ <;> rcases hbc with h2 | ⟨h2, g2⟩
    · exact .inl (h2.trans h1)
    · exact .inl (h2 ▸ h1)
    · exact .inl (h1 ▸ h2)
    · exact .inr ⟨h1.trans h2, g2.trans g1⟩

/-- The standings query (src/app.py:139-150): match `PLAYED` edges in the
selected season and competition, aggregate per team, order by points then
goals scored, both descending. -/
def standingsSem (competition season : String) (store : Store) :
    Except DbError (List StandingsRow) :=
  let edges := store.played.filter
    (fun e => e.season = season ∧ e.competition = competition)
  let teamNames := (edges.map (·.team)).dedup
  .ok (List.insertionSort standingsOrder
    (teamNames.map (fun t => standingsRowFor t (edges.filter (·.team = t)))))

/-- Method `get_standings` (src/app.py:136-152). -/
def get_standings (db : Neo4jHockeyDatabase) (competition season : String) :
    List StandingsRow :=
  fallbackIfEmpty [] (execute_query db (standingsSem competition season))

/-- A top-scorers / top-assists row. -/
structure ScorerRow where
  player : String
  team : String
  tally : Int
  games : Int
deriving DecidableEq

/-- Clause `ORDER BY goals DESC, games ASC` (same shape for assists). -/
def scorerOrder (a b : ScorerRow) : Prop :=
  b.tally < a.tally ∨ (a.tally = b.tally ∧ a.games ≤ b.games)

instance : DecidableRel scorerOrder := fun a b =>
  inferInstanceAs (Decidable
    (b.tally < a.tally ∨ (a.tally = b.tally ∧ a.games ≤ b.games)))

instance : IsTotal ScorerRow scorerOrder where
  total a b := by
    unfold scorerOrder
    rcases lt_trichotomy a.tally b.tally with h | h | h
    · exact .inr (.inl h)
    · rcases le_total a.games b.games with hg | hg
      · exact .inl (.inr ⟨h, hg⟩)
      · exact .inr (.inr ⟨h.symm, hg⟩)
    · exact .inl (.inl h)

instance : IsTrans ScorerRow scorerOrder where
  trans a b c hab hbc := by
    unfold scorerOrder at *
    rcases hab with h1 | ⟨h1, g1⟩ <;> rcases hbc with h2 | ⟨h2, g2⟩
    · exact .inl (h2.trans h1)
    · exact .inl (h2 ▸ h1)
    · exact .inl (h1 ▸ h2)
    · exact .inr ⟨h1.trans h2, g1.trans g2⟩

/-- Per-(player, team) aggregation of the scorer queries: `count(g)` scoring
events and `count(DISTINCT game)` games. -/
def scorerRowFor (key : String × String) (es : List GoalEvent) : ScorerRow :=
  { player := key.1
    team := key.2
    tally := (es.length : Int)
    games := ((es.map (·.gameId)).dedup.length : Int) }

/-- The top-scorers query (src/app.py:157-167) and, with the `assists` facts,
the top-assists query (src/app.py:174-184): filter the events to the selected
season and competition, group by (player, team), order by tally descending
then games ascending, `LIMIT $limit`.  A negative `LIMIT` argument is invalid
Cypher and raises, which we surface as a `queryError`. -/
def scorersSem (competition season : String) (limit : Int)
    (events : Store → List GoalEvent) (store : Store) :
    Except DbError (List ScorerRow) :=
  if limit < 0 then .error .queryError
  else
    let evs := (events store).filter
      (fun e => e.season = season ∧ e.competition = competition)
    let keys := (evs.map (fun e => (e.player, e.team))).dedup
    .ok ((List.insertionSort scorerOrder
      (keys.map (fun k =>
        scorerRowFor k (evs.filter (fun e => e.player = k.1 ∧ e.team = k.2))))).take
      limit.toNat)

/-- Method `get_top_scorers` (src/app.py:154-169). -/
def get_top_scorers (db : Neo4jHockeyDatabase) (competition season : String)
    (limit : Int) : List ScorerRow :=
  fallbackIfEmpty []
    (execute_query db (scorersSem competition season limit (·.goals)))

/-- Method `get_top_assists` (src/app.py:171-186). -/
def get_top_assists (db : Neo4jHockeyDatabase) (competition season : String)
    (limit : Int) : List ScorerRow :=
  fallbackIfEmpty []
    (execute_query db (scorersSem competition season limit (·.assists)))

/-- A penalty-leaders row. -/
structure PenaltyRow where
  player : String
  team : String
  penalties : Int
  penalty_minutes : Int
  games : Int
deriving DecidableEq

/-- Clause `ORDER BY penalties DESC, penalty_minutes DESC`. -/
def penaltyOrder (a b : PenaltyRow) : Prop :=
  b.penalties < a.penalties ∨
    (a.penalties = b.penalties ∧ b.penalty_minutes ≤ a.penalty_minutes)

instance : DecidableRel penaltyOrder := fun a b =>
  inferInstanceAs (Decidable
    (b.penalties < a.penalties ∨
      (a.penalties = b.penalties ∧ b.penalty_minutes ≤ a.penalty_minutes)))

instance : IsTotal PenaltyRow penaltyOrder where
  total a b := by
    unfold penaltyOrder
    rcases lt_trichotomy a.penalties b.penalties with h | h | h
    · exact .inr (.inl h)
    · rcases le_total b.penalty_minutes a.penalty_minutes with hg | hg
      · exact .inl (.inr ⟨h, hg⟩)
      · exact .inr (.inr ⟨h.symm, hg⟩)
    · exact .inl (.inl h)

instance : IsTrans PenaltyRow penaltyOrder where
  trans a b c hab hbc := by
    unfold penaltyOrder at *
    rcases hab with h1 | ⟨h1, g1⟩ <;> rcases hbc with h2 | ⟨h2, g2⟩
    · exact .inl (h2.trans h1)
    · exact .inl (h2 ▸ h1)
    · exact .inl (h1 ▸ h2)
    · exact .inr ⟨h1.trans h2, g2.trans g1⟩

/-- Per-(player, team) aggregation of the penalty query: `count(pen)`,
`sum(pen.minutes)`, `count(DISTINCT game)`. -/
def penaltyRowFor (key : String × String) (es : List PenaltyEvent) :
    PenaltyRow :=
  { player := key.1
    team := key.2
    penalties := (es.length : Int)
    penalty_minutes := (es.map (·.minutes)).sum
    games := ((es.map (·.gameId)).dedup.length : Int) }

/-- The penalty-leaders query (src/app.py:191-201). -/
def penaltySem (competition season : String) (limit : Int) (store : Store) :
    Except DbError (List PenaltyRow) :=
  if limit < 0 then .error .queryError
  else
    let evs := store.penalties.filter
      (fun e => e.season = season ∧ e.competition = competition)
    let keys := (evs.map (fun e => (e.player, e.team))).dedup
    .ok ((List.insertionSort penaltyOrder
      (keys.map (fun k =>
        penaltyRowFor k (evs.filter (fun e => e.player = k.1 ∧ e.team = k.2))))).take
      limit.toNat)

/-- Method `get_penalty_leaders` (src/app.py:188-204). -/
def get_penalty_leaders (db : Neo4jHockeyDatabase) (competition season : String)
    (limit : Int) : List PenaltyRow :=
  fallbackIfEmpty [] (execute_query db (penaltySem competition season limit))

/-- A recent-games row as projected by the recent-games query. -/
structure GameRow where
  date : String
  home_team : String
  away_team : String
  score : Option String
  spectators : Option Int
  title : Option String
deriving DecidableEq

/-- The recent-games query (src/app.py:209-219): games of the selected season
and competition, `ORDER BY g.date DESC LIMIT $limit`. -/
def recentGamesSem (competition season : String) (limit : Int) (store : Store) :
    Except DbError (List GameRow) :=
  if limit < 0 then .error .queryError
  else
    let gs := store.games.filter
      (fun g => g.season = season ∧ g.competition = competition)
    .ok (((List.insertionSort (fun a b : GameNode => b.date ≤ a.date) gs).map
      (fun g =>
        ⟨g.date, g.homeTeam, g.awayTeam, g.score, g.spectators, g.title⟩)).take
      limit.toNat)

/-- Method `get_recent_games` (src/app.py:206-222). -/
def get_recent_games (db : Neo4jHockeyDatabase) (competition season : String)
    (limit : Int) : List GameRow :=
  fallbackIfEmpty []
    (execute_query db (recentGamesSem competition season limit))

/-- The single aggregate row of the team-stats query. -/
structure TeamStatsRow where
  games : Int
  wins : Int
  losses : Int
  goals_for : Int
  goals_against : Int
  points : Int
  avg_goals_for : Option ℚ
  avg_goals_against : Option ℚ
deriving DecidableEq

/-- The team-stats query (src/app.py:227-238): aggregate the team's `PLAYED`
edges in the selected season and competition.  A `RETURN` made only of
aggregates always yields exactly one row, even over zero matches; `count` and
`sum` of nothing are `0`, `avg` of nothing is `null`. -/
def teamStatsSem (teamName competition season : String) (store : Store) :
    Except DbError (List TeamStatsRow) :=
  let es := store.played.filter
    (fun e => e.team = teamName ∧ e.season = season ∧ e.competition = competition)
  .ok [{ games := (es.length : Int)
         wins := (es.countP (fun e => e.result = "W") : Int)
         losses := (es.countP (fun e => e.result = "L") : Int)
         goals_for := (es.map (·.goalsFor)).sum
         goals_against := (es.map (·.goalsAgainst)).sum
         points := (es.map (·.points)).sum
         avg_goals_for :=
           if es.length = 0 then none
           else some (((es.map (·.goalsFor)).sum : ℚ) / (es.length : ℚ))
         avg_goals_against :=
           if es.length = 0 then none
           else some (((es.map (·.goalsAgainst)).sum : ℚ) / (es.length : ℚ)) }]

/-- Method `get_team_stats` (src/app.py:224-240): `results[0] if results else {}`;
the empty dict is modelled as `none`. -/
def get_team_stats (db : Neo4jHockeyDatabase) (teamName competition season : String) :
    Option TeamStatsRow :=
  match execute_query db (teamStatsSem teamName competition season) with
  | [] => none
  | r :: _ => some r

/-!
Display-layer computations.  The `spectators` column is a list of
possibly-null numeric values (pandas `NaN` for a missing value is `none`);
the `score` column is a list of possibly-null strings.
-/

/-- Attendance statistics of `show_games` (src/app.py:706-713):
`dropna()` then keep only strictly positive values. -/
def show_games_valid_attendance (specs : List (Option ℚ)) : List ℚ :=
  (specs.filterMap id).filter (fun x => 0 < x)

/-- The mean `show_games` displays, `none` when no valid value remains
(the metric is skipped). -/
def show_games_avg_attendance (specs : List (Option ℚ)) : Option ℚ :=
  let v := show_games_valid_attendance specs
  if v.length = 0 then none else some (v.sum / (v.length : ℚ))

/-- Attendance statistics of `show_recent_games` (src/app_neo4j.py:637-645):
`df['spectators'].mean()`, i.e. the pandas mean, which skips nulls but keeps
zeros; `none` models the `NaN` mean of an all-null column. -/
def show_recent_games_avg_attendance (specs : List (Option ℚ)) : Option ℚ :=
  let v := specs.filterMap id
  if v.length = 0 then none else some (v.sum / (v.length : ℚ))

/-- Pandas `str.split('-')` on one cell: split the character list on `'-'`. -/
def splitOnChar (sep : Char) : List Char → List (List Char)
  | [] => [[]]
  | c :: rest =>
    match splitOnChar sep rest with
    | [] => [[c]]
    | f :: fs => if c = sep then [] :: f :: fs else (c :: f) :: fs

/-- One decimal digit. -/
def digitVal (c : Char) : Option Nat :=
  if '0' ≤ c ∧ c ≤ '9' then some (c.toNat - '0'.toNat) else none

/-- An unsigned decimal integer: at least one character, all digits. -/
def parseDigits (cs : List Char) : Option Nat :=
  match cs with
  | [] => none
  | _ =>
    cs.foldl (fun acc c => acc.bind (fun n => (digitVal c).map (10 * n + ·)))
      (some 0)

/-- Python `int(...)` as used by `astype(int)` on a string cell: optional
sign, then digits. -/
def parseIntChars : List Char → Option Int
  | '-' :: rest => (parseDigits rest).map (fun n => -(n : Int))
  | '+' :: rest => (parseDigits rest).map (fun n => (n : Int))
  | cs => (parseDigits cs).map (fun n => (n : Int))

/-- Column count of `df['score'].str.split('-', expand=True)`: the maximum
part count over the non-null cells, and one column when every cell is null
(a null cell never widens the frame beyond one column). -/
def scoreCols (scores : List (Option String)) : Nat :=
  ((scores.filterMap id).map
    (fun s => (splitOnChar '-' s.data).length)).foldr max 1

/-- Conversion `astype(int)` on one row of the expanded frame: every one of the `n`
column cells must exist and parse; a null score row is all-`NaN` and fails. -/
def scoreRowInts (sc : Option String) (n : Nat) : Option (List Int) :=
  match sc with
  | none => none
  | some s => (List.range n).mapM
      (fun j => ((splitOnChar '-' s.data).get? j).bind parseIntChars)

/-- Conversion `astype(int)` on the whole expanded frame. -/
def scoreTable (scores : List (Option String)) : Option (List (List Int)) :=
  scores.mapM (scoreRowInts · (scoreCols scores))

/-- Outcome of the `show_games` goal-statistics block (src/app.py:715-731):
the numeric totals, the `st.info` fallback of the `except` arm, or nothing
at all (the `if len(scores.columns) >= 2` guard fails and the block is
silently skipped). -/
inductive GoalStatsOutcome where
  | totals (totalGoals : Int)
  | fallback
  | silent
deriving DecidableEq

/-- Whether the outcome is the numeric-totals branch. -/
def GoalStatsOutcome.isTotals : GoalStatsOutcome → Bool
  | .totals _ => true
  | _ => false

/-- The `show_games` goal-statistics computation over the `score` column
(src/app.py:715-731): split every score on `'-'`; when fewer than two
columns result, do nothing; otherwise convert every cell to an integer —
success displays the summed totals, any conversion failure raises inside
the `try` and lands in the `except` fallback. -/
def show_games_goal_stats (scores : List (Option String)) : GoalStatsOutcome :=
  if scoreCols scores < 2 then .silent
  else
    match scoreTable scores with
    | some table => .totals ((table.map List.sum).sum)
    | none => .fallback

/-!
CSV export (src/app.py:799-806 and src/app_production.py:530-538):
`df.to_csv(index=False)` writes the header row of column names, then one
comma-delimited record per line, each line ended by a newline, with minimal
quoting: a field containing a comma, a double quote, a newline or a carriage
return is wrapped in double quotes and its quotes are doubled.  Fields and
rows are modelled at the character level.
-/

/-- Whether minimal quoting must wrap this field. -/
def needsQuote (f : List Char) : Bool :=
  f.any (fun c => c = ',' || c = '"' || c = '\n' || c = '\r')

/-- Double every double quote. -/
def escapeField : List Char → List Char
  | [] => []
  | c :: rest =>
    if c = '"' then '"' :: '"' :: escapeField rest else c :: escapeField rest

/-- Write one field with minimal quoting. -/
def encodeField (f : List Char) : List Char :=
  if needsQuote f then '"' :: (escapeField f ++ ['"']) else f

/-- Write one record, comma-delimited. -/
def encodeRow : List (List Char) → List Char
  | [] => []
  | [f] => encodeField f
  | f :: g :: rest => encodeField f ++ ',' :: encodeRow (g :: rest)

/-- Write records, each followed by a newline. -/
def encodeLines : List (List (List Char)) → List Char
  | [] => []
  | r :: rs => encodeRow r ++ '\n' :: encodeLines rs

/-- Export `df.to_csv(index=False)`: the header record then the data records. -/
def to_csv (header : List (List Char)) (rows : List (List (List Char))) :
    List Char :=
  encodeLines (header :: rows)

/-- Modelled from the spec: the source only exports CSV (it never re-reads
it), so the re-parser of the round-trip property is the standard
comma-delimited reader the spec appeals to — quoted fields may hold commas,
newlines and doubled quotes; an unquoted field runs to the next comma or
newline.  `parseQuoted` reads the rest of a quoted field: a doubled quote is
a literal quote, a single closing quote ends the field. -/
def parseQuoted : List Char → List Char × List Char
  | [] => ([], [])
  | c :: rest =>
    if c = '"' then
      match rest with
      | [] => ([], [])
      | d :: rest2 =>
        if d = '"' then
          let p := parseQuoted rest2
          ('"' :: p.1, p.2)
        else ([], rest)
    else
      let p := parseQuoted rest
      (c :: p.1, p.2)

/-- Modelled from the spec (see `parseQuoted`): an unquoted field runs to
the next comma or newline, which is left in the remainder. -/
def parseUnquoted : List Char → List Char × List Char
  | [] => ([], [])
  | c :: rest =>
    if c = ',' ∨ c = '\n' then ([], c :: rest)
    else
      let p := parseUnquoted rest
      (c :: p.1, p.2)

/-- Modelled from the spec (see `parseQuoted`): one field, quoted or not. -/
def parseField (l : List Char) : List Char × List Char :=
  match l with
  | [] => ([], [])
  | c :: rest => if c = '"' then parseQuoted rest else parseUnquoted (c :: rest)

/-- Modelled from the spec (see `parseQuoted`): one record — fields separated
by commas, ended by a newline or by the end of the input.  The fuel bounds
the number of fields read. -/
def parseRecFuel : Nat → List Char → List (List Char) × List Char
  | 0, l => ([], l)
  | Nat.succ fuel, l =>
    let p := parseField l
    match p.2 with
    | ',' :: rest =>
      let q := parseRecFuel fuel rest
      (p.1 :: q.1, q.2)
    | '\n' :: rest => ([p.1], rest)
    | _ => ([p.1], [])

/-- Modelled from the spec (see `parseQuoted`): one record, with enough fuel
for any field count the input can hold. -/
def parseRec (l : List Char) : List (List Char) × List Char :=
  parseRecFuel (l.length + 1) l

/-- Modelled from the spec (see `parseQuoted`): all records of the input.
The fuel bounds the number of records read. -/
def parseRecsFuel : Nat → List Char → List (List (List Char))
  | 0, _ => []
  | Nat.succ fuel, l =>
    match l with
    | [] => []
    | _ :: _ =>
      let p := parseRec l
      p.1 :: parseRecsFuel fuel p.2

/-- Modelled from the spec (see `parseQuoted`): all records, with enough fuel
for any record count the input can hold. -/
def parseRecs (l : List Char) : List (List (List Char)) :=
  parseRecsFuel (l.length + 1) l

/-- Modelled from the spec (see `parseQuoted`): re-parse a CSV document into
its header record (the field names) and its data records. -/
def parse_csv (l : List Char) : List (List Char) × List (List (List Char)) :=
  match parseRecs l with
  | [] => ([], [])
  | h :: t => (h, t)

/-!
Concrete database states used to evaluate the operations on explicit inputs.
-/

/-- A connected, healthy database over the empty store. -/
def emptyDb : Neo4jHockeyDatabase := ⟨true, false, Store.empty⟩

/-- A database whose connection test failed in `__init__`. -/
def disconnectedDb : Neo4jHockeyDatabase := ⟨false, false, Store.empty⟩

/-- A store with a single `PLAYED` edge whose `result` is neither `"W"` nor
`"L"` (an overtime/tie code). -/
def tieStore : Store :=
  { Store.empty with played := [⟨"Lag X", "SHL", "2024/2025", "T", 3, 3, 1, 1⟩] }

/-- A connected, healthy database over `tieStore`. -/
def tieDb : Neo4jHockeyDatabase := ⟨true, false, tieStore⟩

/-- A connected database over `tieStore` whose driver raises during
`session.run`. -/
def tieDbFailing : Neo4jHockeyDatabase := ⟨true, true, tieStore⟩

/-- A store with a single scored goal. -/
def goalStore : Store :=
  { Store.empty with
      goals := [⟨"Erik Karlsson", "Frölunda HC", "SHL", "2024/2025", 7⟩] }

/-- A connected, healthy database over `goalStore`. -/
def goalDb : Neo4jHockeyDatabase := ⟨true, false, goalStore⟩

/-- The standings row the `tieStore` data aggregates to. -/
def tieRow : StandingsRow := ⟨"Lag X", 1, 0, 0, 3, 3, 1⟩

/-!
Theorems.
-/

/-- When the connection test failed, or the driver raises during execution,
`execute_query` returns `[]` for any query: the guard at the top returns `[]`
and the `except` arm returns `[]`. -/
theorem execute_query_of_failure (db : Neo4jHockeyDatabase)
    (sem : Store → Except DbError (List α))
    (h : db.connected = false ∨ db.failing = true) :
    execute_query db sem = [] := by
  rcases h with h | h <;> simp [execute_query, h]

/-- On a connected, healthy database, `execute_query` returns exactly the
rows of the query. -/
theorem execute_query_ok (db : Neo4jHockeyDatabase)
    (sem : Store → Except DbError (List α)) (rows : List α)
    (hc : db.connected = true) (hf : db.failing = false)
    (hs : sem db.store = .ok rows) :
    execute_query db sem = rows := by
  simp [execute_query, hc, hf, hs]

/-- C1 counterexample: against a connected, healthy database over the empty
store, `get_seasons` does NOT return `[]` — it substitutes the hard-coded
default list `["2024/2025", "2023/2024"]` inside the gateway. -/
theorem c1_counterexample :
    get_seasons emptyDb = ["2024/2025", "2023/2024"] ∧
      get_seasons emptyDb ≠ ([] : List String) := by
  constructor <;> decide

/-- C1 (amended): against any connected, healthy store with no `Season`
node, `get_seasons` returns the invented default list
`["2024/2025", "2023/2024"]`; the fallback happens inside the gateway, not
in the caller. -/
theorem c1_get_seasons_empty_store_defaults (db : Neo4jHockeyDatabase)
    (hc : db.connected = true) (hf : db.failing = false)
    (hs : db.store.seasons = []) :
    get_seasons db = ["2024/2025", "2023/2024"] := by
  simp [get_seasons, execute_query, seasonsSem, hc, hf, hs, fallbackIfEmpty]

/-- Witness for `c1_get_seasons_empty_store_defaults` at the empty store. -/
theorem c1_witness : get_seasons emptyDb = ["2024/2025", "2023/2024"] :=
  c1_get_seasons_empty_store_defaults emptyDb rfl rfl rfl

/-- C2 counterexample: a standings call on a database holding data but whose
driver raises returns exactly the same plain `[]` a healthy empty store
returns — the failure is swallowed, not surfaced as a typed failure value —
while the same store read without the failure is nonempty. -/
theorem c2_counterexample :
    get_standings tieDbFailing "SHL" "2024/2025" =
        get_standings emptyDb "SHL" "2024/2025" ∧
      get_standings tieDb "SHL" "2024/2025" ≠ [] := by
  constructor <;> decide

/-- C2 (amended): connectivity and malformed-query conditions during a list
operation are caught inside `execute_query` (an error banner is shown) and
the caller receives the plain empty list — the same value as a zero-row
result, with no typed failure; zero-row results themselves never raise. -/
theorem c2_failures_swallowed_as_empty (db : Neo4jHockeyDatabase)
    (competition season : String)
    (h : db.connected = false ∨ db.failing = true) :
    get_standings db competition season = [] ∧
      get_standings db competition season =
        get_standings emptyDb competition season := by
  have hfail : get_standings db competition season = [] := by
    simp [get_standings, execute_query_of_failure db _ h, fallbackIfEmpty]
  have hempty : get_standings emptyDb competition season = [] := by
    simp [get_standings, execute_query, emptyDb, standingsSem, Store.empty,
      fallbackIfEmpty]
  exact ⟨hfail, hfail.trans hempty.symm⟩

/-- Witness for `c2_failures_swallowed_as_empty` at a failing database. -/
theorem c2_witness :
    get_standings tieDbFailing "SHL" "2024/2025" = [] ∧
      get_standings tieDbFailing "SHL" "2024/2025" =
        get_standings emptyDb "SHL" "2024/2025" :=
  c2_failures_swallowed_as_empty tieDbFailing "SHL" "2024/2025" (.inr rfl)

/-- C3: on a connected, healthy database, a team with no `PLAYED` edge in the
selected competition and season gets a single aggregate row whose `games`,
`wins`, `losses`, `goals_for`, `goals_against` and `points` fields are all
present and zero (the averages are null) — not an absent record. -/
theorem c3_team_stats_zero_record (db : Neo4jHockeyDatabase)
    (teamName competition season : String)
    (hc : db.connected = true) (hf : db.failing = false)
    (h : db.store.played.filter
      (fun e => e.team = teamName ∧ e.season = season ∧
        e.competition = competition) = []) :
    get_team_stats db teamName competition season =
      some ⟨0, 0, 0, 0, 0, 0, none, none⟩ := by
  have hsem : teamStatsSem teamName competition season db.store =
      .ok [⟨0, 0, 0, 0, 0, 0, none, none⟩] := by
    unfold teamStatsSem
    rw [h]
    rfl
  rw [get_team_stats, execute_query_ok db _ _ hc hf hsem]

/-- Witness for `c3_team_stats_zero_record` at the empty store. -/
theorem c3_witness :
    get_team_stats emptyDb "Frölunda HC" "SHL" "2024/2025" =
      some ⟨0, 0, 0, 0, 0, 0, none, none⟩ :=
  c3_team_stats_zero_record emptyDb "Frölunda HC" "SHL" "2024/2025" rfl rfl rfl

/-- C4 counterexample: with a store holding scorer data, `limit = 0` is not
rejected as a distinguished input error — `get_top_scorers` silently returns
the plain empty list, while `limit = 10` on the same store is nonempty and a
negative limit (a Cypher error, caught) also comes back as the same `[]`. -/
theorem c4_counterexample :
    get_top_scorers goalDb "SHL" "2024/2025" 0 = [] ∧
      get_top_scorers goalDb "SHL" "2024/2025" 10 ≠ [] ∧
      get_top_scorers goalDb "SHL" "2024/2025" (-1) = [] := by
  refine ⟨by decide, by decide, by decide⟩

/-- C4 (amended): `get_top_scorers` returns at most `max limit 0` rows; a
non-positive limit is not rejected with a distinguished failure — `limit = 0`
yields the empty list from `LIMIT 0`, and a negative limit raises inside the
driver, is caught, and yields the same empty list. -/
theorem c4_top_scorers_limit_clamped (db : Neo4jHockeyDatabase)
    (competition season : String) (limit : Int) :
    (get_top_scorers db competition season limit).length ≤ limit.toNat ∧
      (limit ≤ 0 → get_top_scorers db competition season limit = []) := by
  have key : ∀ rows : List ScorerRow,
      scorersSem competition season limit (·.goals) db.store = .ok rows →
      rows.length ≤ limit.toNat ∧ (limit ≤ 0 → rows = []) := by
    intro rows hrows
    unfold scorersSem at hrows
    by_cases hneg : limit < 0
    · rw [if_pos hneg] at hrows
      exact absurd hrows (by simp)
    · rw [if_neg hneg] at hrows
      obtain rfl : List.take limit.toNat _ = rows := by
        simpa using hrows
      refine ⟨List.length_take_le _ _, fun hle => ?_⟩
      have hz : limit = 0 := le_antisymm hle (not_lt.mp hneg)
      simp [hz]
  rw [get_top_scorers]
  unfold execute_query
  split
  · simp [fallbackIfEmpty]
  · split
    · simp [fallbackIfEmpty]
    · cases hs : scorersSem competition season limit (·.goals) db.store with
      | error e => simp [fallbackIfEmpty]
      | ok rows =>
        have hk := key rows hs
        cases rows with
        | nil => simp [fallbackIfEmpty]
        | cons a l =>
          simpa [fallbackIfEmpty] using hk

/-- Witness for `c4_top_scorers_limit_clamped` at `limit = 0` over a store
with scorer data. -/
theorem c4_witness :
    get_top_scorers goalDb "SHL" "2024/2025" 0 = [] ∧
      (get_top_scorers goalDb "SHL" "2024/2025" 0).length ≤ (0 : Int).toNat :=
  ⟨(c4_top_scorers_limit_clamped goalDb "SHL" "2024/2025" 0).2 (by decide),
    (c4_top_scorers_limit_clamped goalDb "SHL" "2024/2025" 0).1⟩

/-- An insertion sort under `standingsOrder` is pairwise ordered by points
descending with goals-for breaking ties. -/
theorem standings_sort_pairwise (l : List StandingsRow) :
    (List.insertionSort standingsOrder l).Pairwise
      (fun a b => b.points ≤ a.points ∧
        (a.points = b.points → b.goals_for ≤ a.goals_for)) := by
  have hs : List.Sorted standingsOrder (List.insertionSort standingsOrder l) :=
    List.sorted_insertionSort standingsOrder l
  refine hs.imp ?_
  intro a b hab
  rcases hab with h | ⟨heq, hg⟩
  · exact ⟨le_of_lt h, fun habs => absurd habs (ne_of_gt h)⟩
  · exact ⟨le_of_eq heq.symm, fun _ => hg⟩

/-- C5: for every database state, competition and season, the standings
sequence is sorted: every adjacent pair `(a, b)` has `a.points ≥ b.points`,
and on equal points `a.goals_for ≥ b.goals_for`. -/
theorem c5_standings_sorted (db : Neo4jHockeyDatabase)
    (competition season : String) :
    (get_standings db competition season).Chain'
      (fun a b => b.points ≤ a.points ∧
        (a.points = b.points → b.goals_for ≤ a.goals_for)) := by
  rw [get_standings]
  unfold execute_query
  split
  · simp [fallbackIfEmpty]
  · split
    · simp [fallbackIfEmpty]
    · cases hs : standingsSem competition season db.store with
      | error e => simp [fallbackIfEmpty]
      | ok rows =>
        have hrows : rows = List.insertionSort standingsOrder
            (((db.store.played.filter (fun e => e.season = season ∧
                e.competition = competition)).map (·.team)).dedup.map
              (fun t => standingsRowFor t
                ((db.store.played.filter (fun e => e.season = season ∧
                  e.competition = competition)).filter (·.team = t)))) := by
          have := hs
          unfold standingsSem at this
          simpa using this.symm
        have hpw := hrows ▸ standings_sort_pairwise _
        cases rows with
        | nil => simp [fallbackIfEmpty]
        | cons a l =>
          simpa [fallbackIfEmpty] using hpw.chain'

/-- For predicates that never hold together, the two counts fit inside the
length. -/
theorem countP_add_countP_le_length (p q : α → Bool) (l : List α)
    (h : ∀ a ∈ l, ¬(p a = true ∧ q a = true)) :
    l.countP p + l.countP q ≤ l.length := by
  induction l with
  | nil => simp
  | cons x xs ih =>
    have hx := h x (List.mem_cons_self x xs)
    have ihh := ih (fun a ha => h a (List.mem_cons_of_mem x ha))
    by_cases hp : p x = true <;> by_cases hq : q x = true
    · exact absurd ⟨hp, hq⟩ hx
    · simp [List.countP_cons, hp, hq]
      omega
    · simp [List.countP_cons, hp, hq]
      omega
    · simp [List.countP_cons, hp, hq]
      omega

/-- In any per-team aggregate, wins plus losses fit inside the game count:
the two result codes are distinct, so the two `CASE` sums count disjoint
subsets of the counted edges. -/
theorem standingsRowFor_wins_losses (t : String) (es : List PlayedEdge) :
    (standingsRowFor t es).wins + (standingsRowFor t es).losses ≤
      (standingsRowFor t es).games := by
  simp only [standingsRowFor]
  have hcount := countP_add_countP_le_length
    (fun e : PlayedEdge => e.result = "W")
    (fun e : PlayedEdge => e.result = "L") es
    (fun a _ hboth => by
      have h1 : a.result = "W" := of_decide_eq_true hboth.1
      have h2 : a.result = "L" := of_decide_eq_true hboth.2
      simp [h1] at h2)
  exact_mod_cast hcount

/-- C6 counterexample: a store whose single `PLAYED` edge carries the result
code `"T"` produces the standings row `⟨"Lag X", 1, 0, 0, 3, 3, 1⟩`, whose
`wins + losses = 0` differs from `games = 1`. -/
theorem c6_counterexample :
    get_standings tieDb "SHL" "2024/2025" = [tieRow] ∧
      tieRow.wins + tieRow.losses ≠ tieRow.games := by
  constructor <;> decide

/-- C6 (amended): every standings row satisfies `wins + losses ≤ games`;
equality can fail because `games` counts every `PLAYED` edge while `wins`
and `losses` count only those with result exactly `"W"` or `"L"`. -/
theorem c6_wins_losses_le_games (db : Neo4jHockeyDatabase)
    (competition season : String) (row : StandingsRow)
    (hmem : row ∈ get_standings db competition season) :
    row.wins + row.losses ≤ row.games := by
  rw [get_standings] at hmem
  unfold execute_query at hmem
  split at hmem
  · simp [fallbackIfEmpty] at hmem
  · split at hmem
    · simp [fallbackIfEmpty] at hmem
    · revert hmem
      cases hs : standingsSem competition season db.store with
      | error e => simp [fallbackIfEmpty]
      | ok rows =>
        intro hmem
        have hrows := hs
        unfold standingsSem at hrows
        have hmem2 : row ∈ rows := by
          revert hmem
          cases rows with
          | nil => simp [fallbackIfEmpty]
          | cons a l => simp [fallbackIfEmpty]
        rw [show rows = List.insertionSort standingsOrder _ by
          simpa using hrows.symm] at hmem2
        have hmem3 := (List.perm_insertionSort standingsOrder _).mem_iff.mp hmem2
        obtain ⟨t, -, rfl⟩ := List.mem_map.mp hmem3
        exact standingsRowFor_wins_losses t _

/-- Witness for `c6_wins_losses_le_games` at the `tieStore` row. -/
theorem c6_witness : tieRow.wins + tieRow.losses ≤ tieRow.games :=
  c6_wins_losses_le_games tieDb "SHL" "2024/2025" tieRow (by decide)

/-- C10: every read operation of the gateway is total with respect to store
failures: when the connection test failed or the driver raises, each
operation still returns its fallback value — the hard-coded lists for the
filter operations, the empty list for the table operations, and the empty
record for `get_team_stats` — and no exception escapes `execute_query`. -/
theorem c10_read_ops_total_on_failure (db : Neo4jHockeyDatabase)
    (h : db.connected = false ∨ db.failing = true)
    (competition season teamName : String) (limit : Int) :
    get_competitions db = ["SHL"] ∧
      get_seasons db = ["2024/2025", "2023/2024"] ∧
      get_teams db = [⟨"Frölunda HC", "FHC"⟩, ⟨"Skellefteå AIK", "SKE"⟩] ∧
      get_standings db competition season = [] ∧
      get_top_scorers db competition season limit = [] ∧
      get_top_assists db competition season limit = [] ∧
      get_penalty_leaders db competition season limit = [] ∧
      get_recent_games db competition season limit = [] ∧
      get_team_stats db teamName competition season = none := by
  refine ⟨?_, ?_, ?_, ?_, ?_, ?_, ?_, ?_, ?_⟩ <;>
    simp [get_competitions, get_seasons, get_teams, get_standings,
      get_top_scorers, get_top_assists, get_penalty_leaders, get_recent_games,
      get_team_stats, execute_query_of_failure db _ h, fallbackIfEmpty]

/-- Witness for `c10_read_ops_total_on_failure` at the disconnected
database. -/
theorem c10_witness :
    get_competitions disconnectedDb = ["SHL"] ∧
      get_seasons disconnectedDb = ["2024/2025", "2023/2024"] ∧
      get_teams disconnectedDb =
        [⟨"Frölunda HC", "FHC"⟩, ⟨"Skellefteå AIK", "SKE"⟩] ∧
      get_standings disconnectedDb "SHL" "2024/2025" = [] ∧
      get_top_scorers disconnectedDb "SHL" "2024/2025" 10 = [] ∧
      get_top_assists disconnectedDb "SHL" "2024/2025" 10 = [] ∧
      get_penalty_leaders disconnectedDb "SHL" "2024/2025" 10 = [] ∧
      get_recent_games disconnectedDb "SHL" "2024/2025" 15 = [] ∧
      get_team_stats disconnectedDb "Frölunda HC" "SHL" "2024/2025" = none :=
  c10_read_ops_total_on_failure disconnectedDb (.inl rfl)
    "SHL" "2024/2025" "Frölunda HC" 10

/-- C7 counterexample: over the spectators column `[some 0, some 5000]`, the
`show_recent_games` display (src/app_neo4j.py) averages the zero in,
reporting `2500`, while the `show_games` display (src/app.py) averages only
the known positive value, reporting `5000` — a zero "unknown" attendance is
treated as zero attendance by the former. -/
theorem c7_counterexample :
    show_recent_games_avg_attendance [some 0, some 5000] = some 2500 ∧
      show_games_avg_attendance [some 0, some 5000] = some 5000 ∧
      (2500 : ℚ) ≠ 5000 := by
  refine ⟨?_, ?_, by norm_num⟩
  · simp only [show_recent_games_avg_attendance, List.filterMap_cons,
      List.filterMap_nil, id]
    norm_num
  · simp only [show_games_avg_attendance, show_games_valid_attendance,
      List.filterMap_cons, List.filterMap_nil, id]
    norm_num

/-- C7 (amended): in the `show_games` display of src/app.py, the average
attendance is computed only over rows with a known positive spectators
value — prepending a null or zero spectators row never changes the mean.
(The `show_recent_games` display of src/app_neo4j.py instead includes zero
values in its pandas mean.) -/
theorem c7_unknown_attendance_ignored (specs : List (Option ℚ))
    (x : Option ℚ) (h : x = none ∨ x = some 0) :
    show_games_avg_attendance (x :: specs) =
      show_games_avg_attendance specs := by
  have hv : show_games_valid_attendance (x :: specs) =
      show_games_valid_attendance specs := by
    rcases h with rfl | rfl <;>
      simp [show_games_valid_attendance, List.filterMap_cons]
  simp only [show_games_avg_attendance, hv]

/-- Witness for `c7_unknown_attendance_ignored` at a null spectators row. -/
theorem c7_witness :
    show_games_avg_attendance (none :: [some 1]) =
      show_games_avg_attendance [some 1] :=
  c7_unknown_attendance_ignored [some 1] none (.inl rfl)

/-- C8 counterexample: over the score column `[some "12"]` (a present but
hyphen-free score), the goal-statistics block of `show_games` neither
produces numeric totals nor reaches the informational fallback — the
`len(scores.columns) >= 2` guard fails and the block is silently skipped. -/
theorem c8_counterexample :
    show_games_goal_stats [some "12"] = .silent ∧
      (show_games_goal_stats [some "12"]).isTotals = false ∧
      show_games_goal_stats [some "12"] ≠ .fallback := by
  refine ⟨by decide, by decide, by decide⟩

/-- C8 (amended): the goal-statistics computation is total (no exception
escapes the `try`), and has exactly three outcomes: silently skipped when
splitting on `'-'` yields fewer than two columns; the numeric totals when it
yields at least two columns and every cell converts to an integer; the
informational fallback when a conversion fails. -/
theorem c8_goal_stats_trichotomy (scores : List (Option String)) :
    (scoreCols scores < 2 → show_games_goal_stats scores = .silent) ∧
      (∀ tbl, 2 ≤ scoreCols scores → scoreTable scores = some tbl →
        show_games_goal_stats scores = .totals ((tbl.map List.sum).sum)) ∧
      (2 ≤ scoreCols scores → scoreTable scores = none →
        show_games_goal_stats scores = .fallback) := by
  refine ⟨fun h => ?_, fun tbl h2 htbl => ?_, fun h2 htbl => ?_⟩
  · simp [show_games_goal_stats, h]
  · rw [show_games_goal_stats, if_neg (not_lt.mpr h2), htbl]
  · rw [show_games_goal_stats, if_neg (not_lt.mpr h2), htbl]

/-- Witness for `c8_goal_stats_trichotomy` at the single parseable score
`"2-1"`. -/
theorem c8_witness :
    show_games_goal_stats [some "2-1"] =
      .totals (([[2, 1]].map List.sum).sum) :=
  (c8_goal_stats_trichotomy [some "2-1"]).2.1 [[2, 1]] (by decide) (by decide)

/-- Reading a quoted field back: the parser undoes quote doubling and stops
at the single closing quote, provided the next character is not a quote
(in a CSV document it is a comma or a newline). -/
theorem parseQuoted_escapeField (f : List Char) (d : Char) (rest : List Char)
    (hd : d ≠ '"') :
    parseQuoted (escapeField f ++ '"' :: d :: rest) = (f, d :: rest) := by
  induction f with
  | nil => simp [escapeField, parseQuoted, hd]
  | cons c fs ih =>
    by_cases hc : c = '"'
    · subst hc
      simp [escapeField, parseQuoted, ih]
    · rw [escapeField, if_neg hc, List.cons_append, parseQuoted.eq_def]
      simp only [hc, if_false, ih]

/-- Reading an unquoted field back: the parser stops at the first comma or
newline, which a minimally-quoted field cannot contain. -/
theorem parseUnquoted_no_delim (f : List Char) (d : Char) (rest : List Char)
    (hf : ∀ c ∈ f, ¬(c = ',' ∨ c = '\n')) (hd : d = ',' ∨ d = '\n') :
    parseUnquoted (f ++ d :: rest) = (f, d :: rest) := by
  induction f with
  | nil => simp [parseUnquoted, hd]
  | cons c fs ih =>
    have hc := hf c (List.mem_cons_self c fs)
    simp [parseUnquoted, hc,
      ih (fun a ha => hf a (List.mem_cons_of_mem c ha))]

/-- Reading one encoded field back, up to the delimiter that follows it. -/
theorem parseField_encodeField (f : List Char) (d : Char) (rest : List Char)
    (hd : d = ',' ∨ d = '\n') :
    parseField (encodeField f ++ d :: rest) = (f, d :: rest) := by
  have hdq : d ≠ '"' := by rcases hd with rfl | rfl <;> decide
  rw [encodeField]
  by_cases hq : needsQuote f
  · rw [if_pos hq]
    show parseField ('"' :: ((escapeField f ++ ['"']) ++ d :: rest)) = _
    rw [parseField]
    simp only [List.append_assoc, List.singleton_append, if_pos rfl]
    exact parseQuoted_escapeField f d rest hdq
  · rw [if_neg hq]
    have hchars : ∀ c ∈ f, ¬(c = ',' ∨ c = '"' ∨ c = '\n' ∨ c = '\r') := by
      intro c hc habs
      apply absurd hq
      simp only [not_not, needsQuote, List.any_eq_true]
      exact ⟨c, hc, by rcases habs with rfl | rfl | rfl | rfl <;> simp⟩
    cases f with
    | nil =>
      rw [List.nil_append, parseField]
      simp only [hdq, if_neg]
      exact parseUnquoted_no_delim [] d rest (by simp) hd
    | cons c fs =>
      have hcq : c ≠ '"' := fun habs =>
        hchars c (List.mem_cons_self c fs) (by simp [habs])
      rw [List.cons_append, parseField]
      simp only [hcq, if_neg]
      rw [← List.cons_append]
      exact parseUnquoted_no_delim (c :: fs) d rest
        (fun a ha habs => hchars a ha
          (by rcases habs with rfl | rfl <;> simp)) hd

/-- Reading one encoded record back with enough fuel for its field count:
the fields separated by commas, ended by the record's newline. -/
theorem parseRecFuel_encodeRow (r : List (List Char)) :
    ∀ (fuel : Nat) (rest : List Char), r ≠ [] → r.length ≤ fuel →
      parseRecFuel fuel (encodeRow r ++ '\n' :: rest) = (r, rest) := by
  induction r with
  | nil => intro fuel rest hne _; exact absurd rfl hne
  | cons f rs ih =>
    intro fuel rest _ hlen
    cases rs with
    | nil =>
      cases fuel with
      | zero => simp at hlen
      | succ n =>
        rw [encodeRow, parseRecFuel]
        rw [parseField_encodeField f '\n' rest (.inr rfl)]
        rfl
    | cons g rs2 =>
      cases fuel with
      | zero => simp at hlen
      | succ n =>
        rw [encodeRow, parseRecFuel]
        rw [List.append_assoc, List.cons_append]
        rw [parseField_encodeField f ',' (encodeRow (g :: rs2) ++ '\n' :: rest)
          (.inl rfl)]
        have hn : (g :: rs2).length ≤ n := by
          simpa [Nat.succ_le_succ_iff] using hlen
        show (f :: (parseRecFuel n (encodeRow (g :: rs2) ++ '\n' :: rest)).1,
          (parseRecFuel n (encodeRow (g :: rs2) ++ '\n' :: rest)).2) =
          (f :: g :: rs2, rest)
        rw [ih n rest (by simp) hn]

/-- A record has at most one more field than its encoding has characters. -/
theorem length_le_encodeRow_length (r : List (List Char)) :
    r.length ≤ (encodeRow r).length + 1 := by
  induction r with
  | nil => simp [encodeRow]
  | cons f rs ih =>
    cases rs with
    | nil => simp [encodeRow]
    | cons g rs2 =>
      rw [encodeRow]
      simp only [List.length_append, List.length_cons] at *
      omega

/-- Reading one encoded record back with the parser's own fuel. -/
theorem parseRec_encodeRow (r : List (List Char)) (rest : List Char)
    (hne : r ≠ []) :
    parseRec (encodeRow r ++ '\n' :: rest) = (r, rest) := by
  rw [parseRec]
  refine parseRecFuel_encodeRow r _ rest hne ?_
  have h1 := length_le_encodeRow_length r
  simp only [List.length_append, List.length_cons]
  omega

/-- A document has at most as many records as characters: every record costs
at least its newline. -/
theorem length_le_encodeLines_length (rws : List (List (List Char))) :
    rws.length ≤ (encodeLines rws).length := by
  induction rws with
  | nil => simp [encodeLines]
  | cons r rs ih =>
    rw [encodeLines]
    simp only [List.length_append, List.length_cons] at *
    omega

/-- One step of the record reader on a nonempty input. -/
theorem parseRecsFuel_cons_step (fuel : Nat) (l : List Char) (hl : l ≠ []) :
    parseRecsFuel (fuel + 1) l =
      (parseRec l).1 :: parseRecsFuel fuel (parseRec l).2 := by
  cases l with
  | nil => exact absurd rfl hl
  | cons c cs => rw [parseRecsFuel]

/-- Reading all encoded records back, given fuel for the record count. -/
theorem parseRecsFuel_encodeLines (rws : List (List (List Char))) :
    ∀ fuel : Nat, (∀ r ∈ rws, r ≠ []) → rws.length ≤ fuel →
      parseRecsFuel fuel (encodeLines rws) = rws := by
  induction rws with
  | nil =>
    intro fuel _ _
    cases fuel <;> rw [encodeLines] <;> rw [parseRecsFuel]
  | cons r rs ih =>
    intro fuel hne hlen
    cases fuel with
    | zero => simp at hlen
    | succ n =>
      rw [encodeLines]
      rw [parseRecsFuel_cons_step n _ (by simp)]
      rw [parseRec_encodeRow r (encodeLines rs) (hne r (List.mem_cons_self r rs))]
      rw [ih n (fun a ha => hne a (List.mem_cons_of_mem r ha))
        (by simpa [Nat.succ_le_succ_iff] using hlen)]

/-- Full CSV round trip: re-parsing the export of a header and its records
recovers them exactly, provided every record (the header included) has at
least one field. -/
theorem parse_csv_to_csv (header : List (List Char))
    (rows : List (List (List Char))) (hh : header ≠ [])
    (hr : ∀ r ∈ rows, r ≠ []) :
    parse_csv (to_csv header rows) = (header, rows) := by
  rw [parse_csv, parseRecs, to_csv]
  rw [parseRecsFuel_encodeLines (header :: rows) _
    (by
      intro r hmem
      rcases List.mem_cons.mp hmem with rfl | hmem2
      · exact hh
      · exact hr r hmem2)
    (by
      have := length_le_encodeLines_length (header :: rows)
      omega)]

/-- C9: exporting a result sequence with uniform field names to CSV
(`df.to_csv(index=False)`: header row of the field names, comma-delimited,
one record per line, no trailing summary rows) and re-parsing that CSV with
a standard reader yields exactly the same field names and the same number
of rows. -/
theorem c9_csv_roundtrip (header : List (List Char))
    (rows : List (List (List Char))) (hh : header ≠ [])
    (hu : ∀ r ∈ rows, r.length = header.length) :
    (parse_csv (to_csv header rows)).1 = header ∧
      (parse_csv (to_csv header rows)).2.length = rows.length := by
  have hr : ∀ r ∈ rows, r ≠ [] := by
    intro r hmem hnil
    subst hnil
    have := hu [] hmem
    simp at this
    exact hh (List.length_eq_zero.mp this.symm)
  rw [parse_csv_to_csv header rows hh hr]
  exact ⟨rfl, rfl⟩

/-- Witness for `c9_csv_roundtrip` on a two-column table with one data
row. -/
theorem c9_witness :
    (parse_csv (to_csv [['d'], ['h']] [[['1'], ['5']]])).1 = [['d'], ['h']] ∧
      (parse_csv (to_csv [['d'], ['h']] [[['1'], ['5']]])).2.length =
        [[['1'], ['5']]].length :=
  c9_csv_roundtrip [['d'], ['h']] [[['1'], ['5']]] (by decide) (by decide)

end HockeyStats
